import Mathlib

/-!
Shallow embedding of the `shcmdmgr` command-line dispatcher (Python) in Lean 4.

Embedded modules:
* `src/shcmdmgr/complete.py` — the `Complete` completion accumulator;
* `src/shcmdmgr/command.py` — the `Command` alias record;
* `src/shcmdmgr/__main__.py` — scope resolution in `main`, default-command
  injection (`App.invoke_default_command`), alias loading (`App.load_aliases`)
  and the completion output loop (`App.cmd_complete`).

Python strings are modelled as Lean `String`, with indexing, length and
`startswith` expressed through the underlying character list (`String.data`),
matching Python's view of a string as a character sequence.  Python code that
can raise exceptions is modelled with `Except String`.
-/

set_option autoImplicit false

namespace Shcmdmgr

/-- Modelled from the spec: the `config` module is not under `src/`; per §6
"Exit codes", successful execution is `0`. -/
def SUCCESSFULL_EXECUTION : Nat := 0

/-- Modelled from the spec: the `config` module is not under `src/`; per §6
"Exit codes", a user error is a fixed non-zero code. -/
def USER_ERROR : Nat := 1

/-- Python `len(s)` for a string: the number of characters. -/
def pyLen (s : String) : Nat := s.data.length

/-- Python `s[0]`: the first character.  Callers guard against the empty
string (on which Python raises `IndexError`); the default value is never
relevant under that guard. -/
def pyHead (s : String) : Char := s.data.headI

/-- Python `w.startswith(p)`: `p` is a prefix of `w`. -/
def strStartsWith (w p : String) : Bool := p.data.isPrefixOf w.data

/-! ## `complete.py` — the `Complete` accumulator -/

/-- State of a `Complete` instance (`complete.py`): the seeded last argument,
the private backing word list `__words`, and the one-shot `invoked` flag. -/
structure Complete where
  last_arg : String
  __words : List String
  invoked : Bool
deriving DecidableEq

/-- The `words` setter (`complete.py` lines 28–33): raises when any supplied
word is empty, otherwise stores the list. -/
def wordsSetter (words : List String) : Except String (List String) :=
  if words.all (fun w => pyLen w != 0) then .ok words
  else .error ("An empty word was supplied to Complete")

/-- Python `Complete.__init__`: stores `last_arg`, assigns `[]` through the `words`
setter (which accepts the empty list, see `wordsSetter_nil`), and clears
`invoked`. -/
def Complete.init (last_arg : String) : Complete :=
  { last_arg := last_arg, __words := [], invoked := false }

/-- Python `Complete.add_words` (`complete.py` lines 35–38): if the backing list is
falsy (empty) it is reset to `[]`, then `new_words` is appended.  No emptiness
check is performed on the added words. -/
def Complete.add_words (c : Complete) (new_words : List String) : Complete :=
  { c with __words := (if c.__words.isEmpty then [] else c.__words) ++ new_words }

/-- Body of the loop in the `words` getter (`complete.py` lines 18–26): for
each word, line 22 evaluates `word[0]` (raising `IndexError` on an empty
word), then the word is kept when it starts with `last_arg` and either
`last_arg` is non-empty or the word does not start with `'-'`. -/
def wordsViewAux (last_arg : String) : List String → Except String (List String)
  | [] => .ok []
  | word :: rest =>
    if word.data = [] then .error ("string index out of range")
    else (wordsViewAux last_arg rest).map (fun res =>
      if strStartsWith word last_arg && (pyLen last_arg != 0 || pyHead word != '-')
      then word :: res else res)

/-- The `words` getter (`complete.py` lines 18–26): the derived view over the
backing list. -/
def Complete.words (c : Complete) : Except String (List String) :=
  wordsViewAux c.last_arg c.__words

/-- Python `Complete.check_invocation` (`complete.py` lines 40–43): raises when the
terminal method was already invoked, otherwise sets the `invoked` flag. -/
def Complete.check_invocation (c : Complete) : Except String Complete :=
  if c.invoked then .error ("Completion final method executed more than twice!")
  else .ok { c with invoked := true }

/-- Python `Complete.nothing` (`complete.py` lines 45–47): checks invocation and
returns the success exit code. -/
def Complete.nothing (c : Complete) : Except String (Complete × Nat) :=
  (c.check_invocation).map (fun c2 => (c2, SUCCESSFULL_EXECUTION))

/-- Python `Complete.commands` (`complete.py` lines 49–53): checks invocation, adds
every supplied word list via `add_words` in order, and returns the success
exit code. -/
def Complete.commands (c : Complete) (words_lists : List (List String)) :
    Except String (Complete × Nat) :=
  (c.check_invocation).map
    (fun c2 => (words_lists.foldl Complete.add_words c2, SUCCESSFULL_EXECUTION))

/-- The filter described by the spec's words: keep the members of `W` that
start with `p`, except those starting with the flag marker `'-'` when `p` is
the empty string. -/
def specWordsFilter (p : String) (W : List String) : List String :=
  W.filter (fun w => strStartsWith w p && !((p == "") && strStartsWith w ("-")))

/-! ## `command.py` — the `Command` alias record -/

/-- Payload of a stored record: per `command.py`, `command` is either a string
or a procedure over an argument vector; stored records carry a string or an
ordered sequence of strings. -/
inductive CmdPayload where
  | str (s : String)
  | argv (args : List String)
deriving DecidableEq

/-- A `Command` record after construction (`command.py` lines 4–14). -/
structure Command where
  command : CmdPayload
  description : Option String
  «alias» : Option String
  creation_time : Option String
deriving DecidableEq

/-- Python `Command.__init__` (`command.py` lines 6–14): an empty-string description
is replaced by `None`, and an empty-string alias is replaced by `None`. -/
def Command.init (command : CmdPayload) (description «alias» creation_time : Option String) :
    Command :=
  { command := command,
    description := if description = some ("") then none else description,
    «alias» := if «alias» = some ("") then none else «alias»,
    creation_time := creation_time }

/-- Python truthiness of an optional string: `None` and `''` are falsy. -/
def aliasTruthy : Option String → Bool
  | none => false
  | some s => !(s == "")

/-- The `CommandArgument` wrapper of `args.py` (`args.py` is not under `src/`;
the spec's Command Wrapper adapts one stored record into a Leaf Action, so it
is modelled as carrying the wrapped record). -/
structure CommandArgument where
  cmd : Command
deriving DecidableEq

/-- Python `App.load_aliases` (`__main__.py` lines 254–256): wrap each loaded record
whose `alias` is truthy into a `CommandArgument`. -/
def load_aliases (commands_db : List Command) : List CommandArgument :=
  (commands_db.filter (fun c => aliasTruthy c.«alias»)).map (fun c => ⟨c⟩)

/-! ## `__main__.py` — scope resolution in `main` -/

/-- Modelled from the spec: the scope constants of the `config` module (not
under `src/`): automatic, project and global scope. -/
inductive Scope where
  | AUTOMATIC_SCOPE
  | PROJECT_SCOPE
  | GLOBAL_SCOPE
deriving DecidableEq

/-- Scope resolution in `main` (`__main__.py` lines 56–58): automatic scope
becomes project scope when a project was detected, else global scope. -/
def resolveScope (scope : Scope) (proj : Bool) : Scope :=
  if scope = Scope.AUTOMATIC_SCOPE then
    (if proj then Scope.PROJECT_SCOPE else Scope.GLOBAL_SCOPE)
  else scope

/-- Outcome of the scope check in `main` (`__main__.py` lines 59–62): either
the critical scope error (returning `USER_ERROR` before any dispatch), or
dispatch to `app.main_command()` under the resolved scope. -/
inductive MainOutcome where
  | scopeError
  | dispatch (resolved : Scope)
deriving DecidableEq

/-- Function `main` after flag loading (`__main__.py` lines 56–62): resolve the scope,
then fail when the resolved scope is project scope and no project is present,
else dispatch. -/
def mainScopeCheck (scope : Scope) (proj : Bool) : MainOutcome :=
  let s := resolveScope scope proj
  if s = Scope.PROJECT_SCOPE ∧ proj = false then MainOutcome.scopeError
  else MainOutcome.dispatch s

/-- Exit code of the scope check: the scope error returns `USER_ERROR`; on
dispatch the exit code comes from the dispatched command. -/
def mainExitCode : MainOutcome → Option Nat
  | MainOutcome.scopeError => some USER_ERROR
  | MainOutcome.dispatch _ => none

/-! ## `__main__.py` — default-command injection -/

/-- Outcome of `App.invoke_default_command` (`__main__.py` lines 94–109):
either the whole pipeline is re-run with the default arguments appended, or
the invalid-default warning branch, or the no-command warning branch. -/
inductive DefaultOutcome where
  | rerun
  | invalidDefault
  | noCommand
deriving DecidableEq

/-- Python truthiness of the optional `default_command` string. -/
def strTruthy : Option String → Bool
  | none => false
  | some s => !(s == "")

/-- Python `App.invoke_default_command` (`__main__.py` lines 94–109).  `injected` is
the process-wide `DEFAULT_COMMAND_WAS_INJECTED` flag; `new_args` stands for
`shlex.split(default_command)` (a standard-library collaborator, supplied as a
parameter).  Returns the updated flag and the branch taken. -/
def invoke_default_command (injected : Bool) (default_command : Option String)
    (new_args : List String) : Bool × DefaultOutcome :=
  if strTruthy default_command then
    if new_args.length ≠ 0 then
      if injected then (injected, DefaultOutcome.invalidDefault)
      else (true, DefaultOutcome.rerun)
    else (injected, DefaultOutcome.noCommand)
  else (injected, DefaultOutcome.noCommand)

/-- The warning logged by each non-rerun branch of
`App.invoke_default_command`. -/
def outcomeWarning : DefaultOutcome → Option String
  | DefaultOutcome.rerun => none
  | DefaultOutcome.invalidDefault =>
      some ("The default command is invalid, it must include a command argument")
  | DefaultOutcome.noCommand => some ("No command given")

/-- The exit code returned by each non-rerun branch of
`App.invoke_default_command`: both warning branches return `USER_ERROR`. -/
def outcomeExitCode : DefaultOutcome → Option Nat
  | DefaultOutcome.rerun => none
  | DefaultOutcome.invalidDefault => some USER_ERROR
  | DefaultOutcome.noCommand => some USER_ERROR

/-! ## `__main__.py` — completion output -/

/-- The text written to standard output by the loop at the end of
`App.cmd_complete` (`__main__.py` lines 234–236): each word is printed with
`end=' '`, then a bare `print()` writes the final newline. -/
def completionOutput (ws : List String) : String :=
  (ws.foldl (fun acc w => acc ++ w ++ " ") "") ++ "\n"

/-- Stated from the spec's words: the words "printed to standard output,
space-separated, terminated by a newline". -/
def specCompletionOutput (ws : List String) : String :=
  String.intercalate (" ") ws ++ "\n"

/-! ## Helper lemmas -/

theorem wordsSetter_nil : wordsSetter [] = .ok [] := rfl

theorem str_eq_empty_iff (s : String) : s = "" ↔ s.data = [] := by
  constructor
  · rintro rfl; rfl
  · intro h
    cases s with
    | mk data => cases h; rfl

theorem pyLen_eq_zero_iff (s : String) : pyLen s = 0 ↔ s = "" := by
  rw [str_eq_empty_iff]
  exact List.length_eq_zero

theorem add_words_eq (c : Complete) (new_words : List String) :
    c.add_words new_words = { c with __words := c.__words ++ new_words } := by
  unfold Complete.add_words
  by_cases h : c.__words.isEmpty
  · simp [h, List.isEmpty_iff.mp h]
  · simp [h]

theorem foldl_add_words (c : Complete) (wls : List (List String)) :
    wls.foldl Complete.add_words c = { c with __words := c.__words ++ wls.flatten } := by
  induction wls generalizing c with
  | nil => simp
  | cons l rest ih =>
    rw [List.foldl_cons, add_words_eq, ih]
    simp [List.append_assoc]

/-- The loop predicate of the `words` getter agrees with the spec's filter on
every non-empty word. -/
theorem pred_agree (p w : String) (hw : w.data ≠ []) :
    (strStartsWith w p && (pyLen p != 0 || pyHead w != '-')) =
    (strStartsWith w p && !((p == "") && strStartsWith w ("-"))) := by
  obtain ⟨c, cs, hcs⟩ := List.exists_cons_of_ne_nil hw
  have hdash : strStartsWith w ("-") = (c == '-') := by
    show List.isPrefixOf _ _ = _
    simp [show ("-" : String).data = ['-'] from rfl, hcs, List.isPrefixOf, eq_comm]
  have hhead : pyHead w = c := by simp [pyHead, hcs]
  have hlen : (pyLen p != 0) = !(p == "") := by
    by_cases h : p = ""
    · subst h; rfl
    · have hd : p.data ≠ [] := fun hh => h ((str_eq_empty_iff p).mpr hh)
      have hn : pyLen p ≠ 0 := fun hz => hd (List.length_eq_zero.mp hz)
      simp [h, hn, bne]
  rw [hdash, hhead, hlen]
  simp [bne, Bool.not_and]

/-- On a backing list of non-empty words, the `words` getter returns exactly
the spec filter of the list. -/
theorem wordsViewAux_eq_filter (p : String) (W : List String)
    (h : ∀ w ∈ W, w ≠ "") :
    wordsViewAux p W = .ok (specWordsFilter p W) := by
  induction W with
  | nil => rfl
  | cons w rest ih =>
    have hw : w.data ≠ [] := fun hnil => h w (by simp) ((str_eq_empty_iff w).mpr hnil)
    have hrest := ih (fun x hx => h x (by simp [hx]))
    simp only [wordsViewAux, hw, if_neg hw, hrest, Except.map, specWordsFilter,
      List.filter_cons]
    rw [pred_agree p w hw]
    cases hb : (strStartsWith w p && !((p == "") && strStartsWith w ("-"))) <;>
      simp [specWordsFilter]

/-- The accumulation of the completion print loop, started after one word and
one space, equals `String.intercalate.go` followed by one trailing space. -/
theorem complete_go (as : List String) (acc : String) :
    as.foldl (fun a w => a ++ w ++ " ") (acc ++ " ") =
      String.intercalate.go acc (" ") as ++ " " := by
  induction as generalizing acc with
  | nil => rfl
  | cons b bs ih =>
    have hgo : String.intercalate.go acc (" ") (b :: bs) =
        String.intercalate.go (acc ++ " " ++ b) " " bs := rfl
    rw [List.foldl_cons, hgo]
    exact ih (acc ++ " " ++ b)

/-! ## Claim theorems -/

/-- C1: for every prefix `p` (the accumulator's seeded last argument) and
every backing collection of added words (each non-empty, per the record
invariant), the derived `words` view contains exactly the members of the
collection that start with `p`, minus any member starting with the flag
marker `'-'` when `p` is the empty string. -/
theorem C1_words_view_exact (st : Complete) (h : ∀ w ∈ st.__words, w ≠ "") :
    st.words = .ok (specWordsFilter st.last_arg st.__words) :=
  wordsViewAux_eq_filter st.last_arg st.__words h

theorem C1_words_view_exact_witness :
    (∀ w ∈ ((Complete.init ("la")).add_words ["last", "-x", "qq"]).__words, w ≠ "") ∧
    ((Complete.init ("la")).add_words ["last", "-x", "qq"]).words =
      .ok (specWordsFilter ((Complete.init ("la")).add_words ["last", "-x", "qq"]).last_arg
        ((Complete.init ("la")).add_words ["last", "-x", "qq"]).__words) :=
  ⟨by decide, C1_words_view_exact ((Complete.init ("la")).add_words ["last", "-x", "qq"])
    (by decide)⟩

/-- C2: calling a terminal method (`nothing` or `commands`) a second time
after any successful first terminal call raises the fatal internal error,
regardless of which terminal method is called second. -/
theorem C2_second_terminal_raises (c : Complete) (r : Complete × Nat)
    (wl wl2 : List (List String))
    (h : c.nothing = .ok r ∨ c.commands wl = .ok r) :
    r.1.nothing = .error ("Completion final method executed more than twice!") ∧
    r.1.commands wl2 = .error ("Completion final method executed more than twice!") := by
  have hinv : r.1.invoked = true := by
    rcases h with h | h
    · unfold Complete.nothing Complete.check_invocation at h
      by_cases hc : c.invoked
      · simp [hc, Except.map] at h
      · simp only [hc, if_false, Bool.false_eq_true, Except.map] at h
        cases h
        rfl
    · unfold Complete.commands Complete.check_invocation at h
      by_cases hc : c.invoked
      · simp [hc, Except.map] at h
      · simp only [hc, if_false, Bool.false_eq_true, Except.map] at h
        cases h
        rw [foldl_add_words]
  unfold Complete.nothing Complete.commands Complete.check_invocation
  simp [hinv, Except.map]

theorem C2_second_terminal_raises_witness :
    ((Complete.init ("a")).nothing =
        .ok (({ Complete.init ("a") with invoked := true } : Complete), SUCCESSFULL_EXECUTION) ∨
      (Complete.init ("a")).commands [] =
        .ok (({ Complete.init ("a") with invoked := true } : Complete), SUCCESSFULL_EXECUTION)) ∧
    (({ Complete.init ("a") with invoked := true } : Complete).nothing =
        .error ("Completion final method executed more than twice!") ∧
      ({ Complete.init ("a") with invoked := true } : Complete).commands [["x"]] =
        .error ("Completion final method executed more than twice!")) :=
  ⟨Or.inl rfl,
    C2_second_terminal_raises (Complete.init ("a"))
      (({ Complete.init ("a") with invoked := true } : Complete), SUCCESSFULL_EXECUTION)
      [] [["x"]] (Or.inl rfl)⟩

/-- C3 counterexample: `add_words` performs no emptiness check (in the source
it cannot raise), so adding the empty string succeeds and the backing
collection then contains `""` — refuting that every add operation rejects
empty strings and that the collection never contains the empty string. -/
theorem C3_counterexample :
    ((Complete.init ("p")).add_words [""]).__words = [""] := rfl

/-- C3 amended: only the initial assignment (the `words` setter) rejects
empty strings — it succeeds exactly when no supplied word is empty — while
`add_words` appends its words to the collection unchecked. -/
theorem C3_amended_setter_rejects (ws : List String) (st : Complete)
    (new_words : List String) :
    (wordsSetter ws = .ok ws ↔ "" ∉ ws) ∧
    (st.add_words new_words).__words = st.__words ++ new_words := by
  constructor
  · unfold wordsSetter
    by_cases hall : ws.all (fun w => pyLen w != 0)
    · simp only [hall, if_true]
      constructor
      · intro _ hmem
        have := (List.all_eq_true.mp hall) "" hmem
        simp [pyLen] at this
      · intro _; trivial
    · simp only [hall, if_false]
      constructor
      · intro h; cases h
      · intro hnm
        exfalso
        rw [List.all_eq_true] at hall
        push_neg at hall
        obtain ⟨w, hwm, hwp⟩ := hall
        have : pyLen w = 0 := by simpa using hwp
        exact hnm ((pyLen_eq_zero_iff w).mp this ▸ hwm)
  · rw [add_words_eq]

/-- C9: the derived `words` view preserves addition order and duplicates: for
every sequence of `add_words` calls of non-empty words, the view is exactly
the filter of the concatenation of all added lists, so each passing word
appears once per addition, in addition order. -/
theorem C9_words_view_order (p : String) (calls : List (List String))
    (h : ∀ l ∈ calls, ∀ w ∈ l, w ≠ "") :
    (calls.foldl Complete.add_words (Complete.init p)).words =
      .ok (specWordsFilter p calls.flatten) := by
  rw [foldl_add_words]
  show wordsViewAux p ([] ++ calls.flatten) = _
  rw [List.nil_append]
  refine wordsViewAux_eq_filter p calls.flatten ?_
  intro w hw
  obtain ⟨l, hl, hwl⟩ := List.mem_flatten.mp hw
  exact h l hl w hwl

theorem C9_words_view_order_witness :
    (∀ l ∈ [["last-a", "random"], ["last-a", "lastly"]], ∀ w ∈ l, w ≠ "") ∧
    ([["last-a", "random"], ["last-a", "lastly"]].foldl Complete.add_words
        (Complete.init ("last"))).words =
      .ok (specWordsFilter ("last") [["last-a", "random"], ["last-a", "lastly"]].flatten) :=
  ⟨by decide, C9_words_view_order ("last") [["last-a", "random"], ["last-a", "lastly"]]
    (by decide)⟩

/-- C10: on the first (legal) terminal invocation, `nothing` returns the
successful-execution exit code, and `commands` appends every word of every
supplied list to the backing collection, in list order, before returning the
successful-execution exit code. -/
theorem C10_first_terminal_success (c : Complete) (wls : List (List String))
    (h : c.invoked = false) :
    c.nothing = .ok ({ c with invoked := true }, SUCCESSFULL_EXECUTION) ∧
    c.commands wls =
      .ok ({ c with invoked := true, __words := c.__words ++ wls.flatten },
        SUCCESSFULL_EXECUTION) := by
  unfold Complete.nothing Complete.commands Complete.check_invocation
  simp [h, Except.map, foldl_add_words]

theorem C10_first_terminal_success_witness :
    (Complete.init ("z")).invoked = false ∧
    ((Complete.init ("z")).nothing =
        .ok ({ Complete.init ("z") with invoked := true }, SUCCESSFULL_EXECUTION) ∧
      (Complete.init ("z")).commands [["a"], ["b", "c"]] =
        .ok ({ Complete.init ("z") with
                 invoked := true,
                 __words := (Complete.init ("z")).__words ++ [["a"], ["b", "c"]].flatten },
             SUCCESSFULL_EXECUTION)) :=
  ⟨rfl, C10_first_terminal_success (Complete.init ("z")) [["a"], ["b", "c"]] rfl⟩

/-- C4: default-command injection re-runs the pipeline at most once: once the
injection guard was set by a rerun, a further injection attempt never reruns
the pipeline, and (when the configured default is truthy and splits into a
non-empty argument list) it is rejected with the invalid-default warning and
the user-error exit code. -/
theorem C4_injection_at_most_once (dc dc2 : Option String) (na na2 : List String)
    (h : (invoke_default_command false dc na).2 = DefaultOutcome.rerun) :
    (invoke_default_command (invoke_default_command false dc na).1 dc2 na2).2 ≠
      DefaultOutcome.rerun ∧
    (strTruthy dc2 = true → na2 ≠ [] →
      invoke_default_command (invoke_default_command false dc na).1 dc2 na2 =
        (true, DefaultOutcome.invalidDefault) ∧
      outcomeExitCode DefaultOutcome.invalidDefault = some USER_ERROR ∧
      outcomeWarning DefaultOutcome.invalidDefault =
        some ("The default command is invalid, it must include a command argument")) := by
  have hguard : (invoke_default_command false dc na).1 = true := by
    unfold invoke_default_command at h ⊢
    by_cases h1 : strTruthy dc
    · by_cases h2 : na.length ≠ 0
      · simp [h1, h2]
      · simp [h1, h2] at h
    · simp [h1] at h
  rw [hguard]
  constructor
  · unfold invoke_default_command
    by_cases h1 : strTruthy dc2
    · by_cases h2 : na2.length ≠ 0
      · simp [h1, h2]
      · simp [h1, h2]
    · simp [h1]
  · intro h1 h2
    have h2' : na2.length ≠ 0 := by
      intro hz
      exact h2 (List.length_eq_zero.mp hz)
    unfold invoke_default_command
    simp [h1, h2']
    exact ⟨rfl, rfl⟩

theorem C4_injection_at_most_once_witness :
    (invoke_default_command false (some ("status")) ["status"]).2 =
      DefaultOutcome.rerun ∧
    ((invoke_default_command (invoke_default_command false (some ("status")) ["status"]).1
        (some ("status")) ["status"]).2 ≠ DefaultOutcome.rerun ∧
      (strTruthy (some ("status")) = true → (["status"] : List String) ≠ [] →
        invoke_default_command (invoke_default_command false (some ("status")) ["status"]).1
            (some ("status")) ["status"] =
          (true, DefaultOutcome.invalidDefault) ∧
        outcomeExitCode DefaultOutcome.invalidDefault = some USER_ERROR ∧
        outcomeWarning DefaultOutcome.invalidDefault =
          some ("The default command is invalid, it must include a command argument"))) :=
  ⟨by decide, C4_injection_at_most_once (some ("status")) (some ("status"))
    ["status"] ["status"] (by decide)⟩

/-- C5: whenever the resolved scope is project scope but no project was
detected, `main` reports the critical scope error and returns the user-error
exit code instead of dispatching, so no alias lookup or command execution is
reached. -/
theorem C5_project_scope_without_project (scope : Scope) (proj : Bool)
    (h1 : resolveScope scope proj = Scope.PROJECT_SCOPE) (h2 : proj = false) :
    mainScopeCheck scope proj = MainOutcome.scopeError ∧
    mainExitCode (mainScopeCheck scope proj) = some USER_ERROR := by
  subst h2
  unfold mainScopeCheck
  simp [h1, mainExitCode]

theorem C5_project_scope_without_project_witness :
    resolveScope Scope.PROJECT_SCOPE false = Scope.PROJECT_SCOPE ∧ false = false ∧
    (mainScopeCheck Scope.PROJECT_SCOPE false = MainOutcome.scopeError ∧
      mainExitCode (mainScopeCheck Scope.PROJECT_SCOPE false) = some USER_ERROR) :=
  ⟨by decide, rfl,
    C5_project_scope_without_project Scope.PROJECT_SCOPE false (by decide) rfl⟩

/-- C6 counterexample: with the single completion word `"ab"`, the completion
run writes `"ab \x20"`-style output — `"ab \n"` with a trailing space — while
space-separated newline-terminated output would be `"ab\n"`; the two differ. -/
theorem C6_counterexample :
    completionOutput ["ab"] ≠ specCompletionOutput ["ab"] := by decide

/-- C6 amended: when completion mode finishes, the words are printed to
standard output space-separated and newline-terminated except that every word
(including the last) is followed by one space, i.e. the output is the
space-separated word list plus a trailing space (when any word is present)
and a final newline. -/
theorem C6_amended_output_format (ws : List String) :
    completionOutput ws =
      String.intercalate (" ") ws ++ (if ws.isEmpty then ("") else (" ")) ++ "\n" := by
  cases ws with
  | nil => rfl
  | cons a as =>
    show (a :: as).foldl (fun acc w => acc ++ w ++ " ") "" ++ "\n" = _
    rw [List.foldl_cons, String.empty_append]
    have hgo : String.intercalate (" ") (a :: as) = String.intercalate.go a (" ") as := rfl
    rw [complete_go as a, hgo]
    simp

/-- C7: a stored record whose alias field is absent or empty never becomes a
Leaf Action: a record constructed with an empty-string alias is normalized to
an absent alias, and `load_aliases` yields a Command Wrapper only for records
whose alias is a non-empty string. -/
theorem C7_no_leaf_without_alias (db : List Command) (cmd : CmdPayload)
    (descr t : Option String) (w : CommandArgument)
    (h : w ∈ load_aliases db) :
    (Command.init cmd descr (some ("")) t).«alias» = none ∧
    ∃ s, w.cmd.«alias» = some s ∧ s ≠ "" := by
  constructor
  · simp [Command.init]
  · unfold load_aliases at h
    obtain ⟨c, hc, rfl⟩ := List.mem_map.mp h
    have htr := (List.mem_filter.mp hc).2
    cases hal : c.«alias» with
    | none => rw [hal] at htr; simp [aliasTruthy] at htr
    | some s =>
      refine ⟨s, rfl, ?_⟩
      rw [hal] at htr
      simpa [aliasTruthy] using htr

theorem C7_no_leaf_without_alias_witness :
    (⟨Command.init (CmdPayload.str ("echo hi")) none (some ("run")) none⟩ : CommandArgument) ∈
      load_aliases [Command.init (CmdPayload.str ("echo hi")) none (some ("run")) none,
        Command.init (CmdPayload.str ("other")) none (some ("")) none] ∧
    ((Command.init (CmdPayload.str ("x")) none (some ("")) none).«alias» = none ∧
      ∃ s, (⟨Command.init (CmdPayload.str ("echo hi")) none (some ("run")) none⟩ :
        CommandArgument).cmd.«alias» = some s ∧ s ≠ "") :=
  ⟨by decide,
    C7_no_leaf_without_alias
      [Command.init (CmdPayload.str ("echo hi")) none (some ("run")) none,
        Command.init (CmdPayload.str ("other")) none (some ("")) none]
      (CmdPayload.str ("x")) none none
      (⟨Command.init (CmdPayload.str ("echo hi")) none (some ("run")) none⟩ : CommandArgument)
      (by decide)⟩

/-- C8: a `Command` constructed with an empty-string description is normalized
to an absent description, exactly as an empty-string alias is normalized, so
an empty and a missing description field are indistinguishable afterward. -/
theorem C8_empty_description_absent (cmd : CmdPayload) (al t : Option String) :
    Command.init cmd (some ("")) al t = Command.init cmd none al t ∧
    (Command.init cmd (some ("")) al t).description = none := by
  constructor <;> simp [Command.init]

end Shcmdmgr
